import Mathlib

/-
Verification development for the Markoshka 20x2 display program.

The definitions below are a shallow embedding of the Python sources:
  src/markoshka/display.py  (text wrapping and frame rendering)
  src/markoshka/phrases.py  (the phrase catalogue)
  src/main.py               (PhraseSequencer, MarkoshkaApp mode controller)
Strings are modelled as Lean strings; Python `len` on a string is the
number of unicode code points, which coincides with `String.length` here.
-/

namespace Markoshka

/-- Display geometry from src/markoshka/display.py: `DISPLAY_WIDTH = 20`. -/
def DISPLAY_WIDTH : Nat := 20

/-- Display geometry from src/markoshka/display.py: `DISPLAY_HEIGHT = 2`. -/
def DISPLAY_HEIGHT : Nat := 2

/-- Embeds the dataclass `DisplayFrame` of src/markoshka/display.py:
two lines of text ready for the LCD. -/
structure DisplayFrame where
  lines : List String
deriving DecidableEq

/-- Splitting a character list at every character satisfying `p`, keeping
empty pieces, as Python `str.split(sep)` does for a one-character
separator: the result always has one more piece than there are
separator occurrences. -/
def splitOnPred (p : Char → Bool) : List Char → List (List Char)
  | [] => [[]]
  | c :: rest =>
    match splitOnPred p rest with
    | [] => [[]]
    | g :: gs => if p c then [] :: g :: gs else (c :: g) :: gs

/-- The whitespace characters recognised by Python `str.split()` (no
argument form), restricted to the ASCII ones that can occur here. -/
def isPySpace (c : Char) : Bool :=
  c == ' ' || c == '\t' || c == '\n' || c == '\r' || c == '\x0b' || c == '\x0c'

/-- Python `segment.split()`: split on runs of whitespace, dropping empty
pieces, as used by `_wrap_message_lines` in src/markoshka/display.py
via `" ".join(segment.split())`. -/
def pyWords (cs : List Char) : List (List Char) :=
  (splitOnPred isPySpace cs).filter (fun w => !w.isEmpty)

/-- One greedy line fill of CPython `textwrap.wrap(normalized, width,
break_long_words=False, break_on_hyphens=False)` on whitespace-normalized
input: the current line starts with one word (placed even when longer
than `width`); each following word `w` is appended, preceded by one
space, exactly when the line stays within `width`; otherwise the line is
closed and `w` starts the next line. -/
def wrapAux (width : Nat) (cur : List Char) : List (List Char) → List (List Char)
  | [] => [cur]
  | w :: rest =>
    if cur.length + 1 + w.length ≤ width then wrapAux width (cur ++ ' ' :: w) rest
    else cur :: wrapAux width w rest

/-- CPython `textwrap.wrap(text, width, break_long_words=False,
break_on_hyphens=False)` applied to the already whitespace-normalized
text whose words are `ws`; returns `[]` for empty input. -/
def greedyWrap (width : Nat) : List (List Char) → List (List Char)
  | [] => []
  | w :: rest => wrapAux width w rest

/-- Embeds `_wrap_message_lines` of src/markoshka/display.py: split the
message on explicit newlines; normalize each segment's whitespace; an
empty segment yields one empty line; otherwise word-wrap the segment to
`DISPLAY_WIDTH` without breaking words; finally `lines or [""]`. -/
def wrapMessageLines (message : String) : List String :=
  let segments := splitOnPred (fun c => c == '\n') message.data
  let lines := segments.flatMap (fun seg =>
    let ws := pyWords seg
    if ws.isEmpty then [([] : List Char)]
    else greedyWrap DISPLAY_WIDTH ws)
  let lines := if lines.isEmpty then [([] : List Char)] else lines
  lines.map (fun l => String.mk l)

/-- Python slicing `s[:n]` on a string. -/
def pyTake (s : String) (n : Nat) : String := String.mk (s.data.take n)

/-- Python `s.ljust(n)`: right-pad with spaces up to length `n`. -/
def pyLjust (s : String) (n : Nat) : String :=
  String.mk (s.data ++ List.replicate (n - s.data.length) ' ')

/-- The expression `line[:DISPLAY_WIDTH].ljust(DISPLAY_WIDTH)` used for
every rendered row in src/markoshka/display.py. -/
def fmtLine (line : String) : String := pyLjust (pyTake line DISPLAY_WIDTH) DISPLAY_WIDTH

/-- Python `" " * n`. -/
def spaces (n : Nat) : String := String.mk (List.replicate n ' ')

/-- Embeds `vertical_scrolling_frames` of src/markoshka/display.py:
for wrapped lines `lines`, one frame per `idx in range(len(lines) - 1)`
showing rows `lines[idx]` and `lines[idx + 1]`, each truncated to and
padded to `DISPLAY_WIDTH`. -/
def verticalScrollingFrames (message : String) : List DisplayFrame :=
  let lines := wrapMessageLines message
  (List.range (lines.length - 1)).map (fun idx =>
    ⟨[fmtLine (lines.getD idx ""), fmtLine (lines.getD (idx + 1) "")]⟩)

/-- Embeds `static_frame` of src/markoshka/display.py: first wrapped line
formatted to width; second wrapped line likewise when it exists, else a
row of `DISPLAY_WIDTH` spaces. -/
def staticFrame (message : String) : DisplayFrame :=
  let lines := wrapMessageLines message
  ⟨[fmtLine (lines.getD 0 ""),
    if 1 < lines.length then fmtLine (lines.getD 1 "") else spaces DISPLAY_WIDTH]⟩

/-- Which rendering branch `show_message` takes. -/
inductive RenderPath where
  | static
  | scrolling
deriving DecidableEq

/-- Embeds the branch decision of `show_message` in
src/markoshka/display.py: static iff the wrapped line count is at most
`DISPLAY_HEIGHT`, otherwise the scrolling animation. -/
def showMessagePath (message : String) : RenderPath :=
  if (wrapMessageLines message).length ≤ DISPLAY_HEIGHT then RenderPath.static
  else RenderPath.scrolling

/-- Embeds the dataclass `Category` of src/markoshka/phrases.py. The
dataclass performs no validation of `phrases`. -/
structure Category where
  name : String
  phrases : List String
deriving DecidableEq

/-- Embeds `PHRASE_CATALOGUE` of src/markoshka/phrases.py: a dict from
category name to `Category`, in insertion order. -/
def PHRASE_CATALOGUE : List (String × Category) :=
  [("Поддержка", ⟨"Поддержка", ["Ты справишься!", "Дыши глубже, все ок"]⟩),
   ("Вдохновение", ⟨"Вдохновение", ["Ты как лучик света", "Сегодня твой день"]⟩),
   ("Юмор", ⟨"Юмор", ["Кофе уже в пути"]⟩),
   ("Напоминания", ⟨"Напоминания", ["Вода? Пора глоток", "Спинка прямая"]⟩),
   ("Отдых", ⟨"Отдых", ["Микро-перерыв?"]⟩),
   ("Цели", ⟨"Цели", ["Шаг за шагом"]⟩),
   ("Похвала", ⟨"Похвала", ["Я горжусь тобой"]⟩),
   ("Дружба", ⟨"Дружба", ["Я рядом, Марго"]⟩),
   ("Энергия", ⟨"Энергия", ["Зажигаем день!"]⟩)]

/-- `list(categories.values())` as stored by `PhraseSequencer.__init__`
when constructed on `PHRASE_CATALOGUE` (src/main.py line 120). -/
def markoshkaCategories : List Category := PHRASE_CATALOGUE.map (fun kv => kv.2)

/-- The mutable cursor of `PhraseSequencer` (src/main.py lines 41-44). -/
structure SequencerState where
  category_index : Nat
  phrase_index : Nat
deriving DecidableEq

/-- Embeds `PhraseSequencer.__init__` (src/main.py lines 41-44): it
stores the category list and unconditionally sets both indices to 0,
performing no validation of the catalogue. -/
def initSequencer (_categories : List Category) : SequencerState := ⟨0, 0⟩

/-- Embeds `PhraseSequencer._advance_indices` (src/main.py lines 47-55),
the body of `next_phrase(Sequential)`. A `none` result models the
`IndexError` raised by an out-of-range list subscript. -/
def advanceIndices (cats : List Category) (s : SequencerState) :
    Option ((Category × String) × SequencerState) :=
  match cats[s.category_index]? with
  | none => none
  | some category =>
    match category.phrases[s.phrase_index]? with
    | none => none
    | some phrase =>
      let newPhraseIndex := (s.phrase_index + 1) % category.phrases.length
      if newPhraseIndex = 0 then
        some ((category, phrase), ⟨(s.category_index + 1) % cats.length, newPhraseIndex⟩)
      else
        some ((category, phrase), ⟨s.category_index, newPhraseIndex⟩)

/-- `n` consecutive calls of `next_phrase(Sequential)` from state `s`,
collecting the returned (category, phrase) pairs in order; `none` when
any call raises. -/
def runSequential (cats : List Category) : SequencerState → Nat →
    Option (List (Category × String) × SequencerState)
  | s, 0 => some ([], s)
  | s, n + 1 =>
    match advanceIndices cats s with
    | none => none
    | some (p, s1) =>
      match runSequential cats s1 n with
      | none => none
      | some (out, s2) => some (p :: out, s2)

/-- Sum of the phrase counts over all categories. -/
def totalPhraseCount (cats : List Category) : Nat :=
  (cats.map (fun c => c.phrases.length)).sum

/-- Every (category, phrase) pair, in catalogue insertion order and in
phrase order within each category. -/
def cataloguePairs (cats : List Category) : List (Category × String) :=
  cats.flatMap (fun c => c.phrases.map (fun p => (c, p)))

/-- Phrase count of the categories from index `k` onwards. -/
def countFrom (cats : List Category) (k : Nat) : Nat :=
  ((cats.drop k).map (fun c => c.phrases.length)).sum

/-- The (category, phrase) pairs of the categories from index `k` onwards. -/
def pairsFrom (cats : List Category) (k : Nat) : List (Category × String) :=
  (cats.drop k).flatMap (fun c => c.phrases.map (fun p => (c, p)))

/-- Embeds the `Mode` enum of src/main.py. -/
inductive Mode where
  | sequential
  | random
  | categorySequence
  | weather
deriving DecidableEq

/-- Embeds the dict lookup `{SEQUENTIAL: RANDOM, RANDOM:
CATEGORY_SEQUENCE, CATEGORY_SEQUENCE: SEQUENTIAL}[self.mode]` in
`toggle_mode` (src/main.py lines 165-169); `none` models the `KeyError`
for the absent `WEATHER` key. -/
def toggleModeLookup : Mode → Option Mode
  | Mode.sequential => some Mode.random
  | Mode.random => some Mode.categorySequence
  | Mode.categorySequence => some Mode.sequential
  | Mode.weather => none

/-- Embeds the lookup `MODE_DISPLAY_NAMES[mode.value]` (src/main.py
lines 24-28); `none` models the `KeyError` for the absent "weather" key. -/
def modeDisplayName : Mode → Option String
  | Mode.sequential => some "Режим: подряд"
  | Mode.random => some "Режим: рандом"
  | Mode.categorySequence => some "Режим: по разделу"
  | Mode.weather => none

/-- The controller-relevant attributes of `MarkoshkaApp` (src/main.py
lines 117-140), with the sequencer cursor inlined: `mode`, `_prev_mode`,
`pending_overlay`, `sequencer.category_index`, `sequencer.phrase_index`,
`running`, `last_category_shown`. -/
structure AppState where
  mode : Mode
  prev_mode : Option Mode
  pending_overlay : Option String
  category_index : Nat
  phrase_index : Nat
  running : Bool
  last_category_shown : Option String
deriving DecidableEq

/-- The state established by `MarkoshkaApp.__init__` (src/main.py lines
117-140): Sequential mode, no previous mode, no overlay, sequencer at
(0, 0), running. -/
def initialAppState : AppState :=
  ⟨Mode.sequential, none, none, 0, 0, true, none⟩

/-- Embeds `MarkoshkaApp.toggle_mode` (src/main.py lines 164-171); the
dict subscripts happen before any assignment, so a `KeyError` (modelled
as `none`) leaves the state untouched. -/
def toggleModeFn (s : AppState) : Option AppState :=
  match toggleModeLookup s.mode with
  | none => none
  | some nextMode =>
    match modeDisplayName nextMode with
    | none => none
    | some overlayText =>
      some { s with mode := nextMode, pending_overlay := some overlayText }

/-- Embeds `MarkoshkaApp.cycle_category` (src/main.py lines 173-181):
force CategorySequence mode, advance the category index modulo the
catalogue size, reset the phrase index, and announce the new category.
`none` models the `ZeroDivisionError`/`IndexError` on an empty
catalogue; note `_prev_mode` is not touched. -/
def cycleCategoryFn (cats : List Category) (s : AppState) : Option AppState :=
  if cats.length = 0 then none
  else
    let newMode := if s.mode = Mode.categorySequence then s.mode else Mode.categorySequence
    let ci := (s.category_index + 1) % cats.length
    match cats[ci]? with
    | none => none
    | some category =>
      some { s with mode := newMode, category_index := ci, phrase_index := 0,
                    pending_overlay := some ("Раздел: " ++ category.name) }

/-- Embeds `MarkoshkaApp.toggle_weather` (src/main.py lines 183-195):
leaving Weather restores `_prev_mode or SEQUENTIAL` and clears
`_prev_mode`, with overlay `MODE_DISPLAY_NAMES.get(value, "Режим:
фразы")`; entering Weather records the current mode. -/
def toggleWeatherFn (s : AppState) : AppState :=
  if s.mode = Mode.weather then
    let restored := s.prev_mode.getD Mode.sequential
    { s with mode := restored, prev_mode := none,
             pending_overlay := some ((modeDisplayName restored).getD "Режим: фразы") }
  else
    { s with prev_mode := some s.mode, mode := Mode.weather,
             pending_overlay := some "Режим: погода" }

/-- The three button-driven controller operations. -/
inductive ButtonAction where
  | toggleMode
  | cycleCategory
  | toggleWeather
deriving DecidableEq

/-- One button callback applied to the app state; an operation that
raises (`none`) leaves the Python object's state unchanged, because the
failing lookup precedes every assignment. -/
def applyAction (cats : List Category) (a : ButtonAction) (s : AppState) : AppState :=
  match a with
  | ButtonAction.toggleMode => (toggleModeFn s).getD s
  | ButtonAction.cycleCategory => (cycleCategoryFn cats s).getD s
  | ButtonAction.toggleWeather => toggleWeatherFn s

/-- A sequence of button callbacks applied in order. -/
def runActions (cats : List Category) (s : AppState) : List ButtonAction → AppState
  | [] => s
  | a :: rest => runActions cats (applyAction cats a s) rest

/-- `n` consecutive `toggle_mode` calls, `none` as soon as one raises. -/
def toggleModeIter (s : AppState) : Nat → Option AppState
  | 0 => some s
  | n + 1 =>
    match toggleModeIter s n with
    | none => none
    | some s1 => toggleModeFn s1

/-- Decides the spec invariant of §4.3: `previous_mode` is defined only
while Weather mode is active. -/
def prevModeInvariantB (s : AppState) : Bool :=
  match s.prev_mode with
  | none => true
  | some _ => match s.mode with
    | Mode.weather => true
    | _ => false

/-- The attribute names assigned on `MarkoshkaApp` by its `__init__`
(src/main.py lines 117-140). There is no attribute named "button": the
two buttons are `mode_button` and `weather_button`. -/
def markoshkaAppAttributes : List String :=
  ["driver", "mode", "sequencer", "running", "pending_overlay",
   "last_category_shown", "_prev_mode", "_weather_cache",
   "mode_button", "weather_button"]

/-- Embeds `MarkoshkaApp.stop` (src/main.py lines 354-356): it assigns
`self.running = False`, then evaluates `self.button.close()`; the
attribute access `self.button` raises `AttributeError` (second component
`true`) exactly when "button" is not an attribute of the object, and the
already-performed assignment to `running` persists. -/
def stopRun (s : AppState) : AppState × Bool :=
  ({ s with running := false }, !(markoshkaAppAttributes.contains "button"))

/-- A phrase of 41 identical letters: longer than 40 characters with no
whitespace anywhere. -/
def longSpacelessPhrase : String := String.mk (List.replicate 41 'a')

/-- The app state after three `toggle_mode` presses from startup. -/
def stateAfterThreeToggles : AppState :=
  { initialAppState with mode := Mode.sequential,
                         pending_overlay := some "Режим: подряд" }

/-- The app state after one `toggle_weather` press from startup: Weather
mode with Sequential remembered. -/
def weatherAppState : AppState := toggleWeatherFn initialAppState

theorem string_mk_length (l : List Char) : (String.mk l).length = l.length := rfl

theorem fmtLine_length (s : String) : (fmtLine s).length = DISPLAY_WIDTH := by
  simp only [fmtLine, pyLjust, pyTake, string_mk_length, List.length_append,
    List.length_replicate, List.length_take, DISPLAY_WIDTH]
  omega

theorem spaces_length (n : Nat) : (spaces n).length = n := by
  simp [spaces, string_mk_length]

theorem verticalScrollingFrames_length (m : String) :
    (verticalScrollingFrames m).length = (wrapMessageLines m).length - 1 := by
  simp [verticalScrollingFrames]

theorem verticalScrollingFrames_getD (m : String) (i : Nat)
    (h : i < (verticalScrollingFrames m).length) :
    (verticalScrollingFrames m).getD i ⟨[]⟩ =
      ⟨[fmtLine ((wrapMessageLines m).getD i ""),
        fmtLine ((wrapMessageLines m).getD (i + 1) "")]⟩ := by
  rw [verticalScrollingFrames_length] at h
  simp only [verticalScrollingFrames]
  rw [List.getD_eq_getElem?_getD, List.getElem?_map, List.getElem?_range h]
  rfl

/-- C5: for a message with `N` wrapped lines, `vertical_scrolling_frames`
yields exactly `max (N-1) 0` frames; frame `i` shows wrapped lines `i`
and `i+1` as its two rows, each truncated and padded to exactly 20
characters, so each frame's first row equals the previous frame's second
row, and a message with at most one wrapped line yields no frames. -/
theorem vertical_scrolling_frames_spec (m : String) :
    (verticalScrollingFrames m).length = max ((wrapMessageLines m).length - 1) 0 ∧
    (∀ i, i < (verticalScrollingFrames m).length →
      ((verticalScrollingFrames m).getD i ⟨[]⟩).lines =
        [fmtLine ((wrapMessageLines m).getD i ""),
         fmtLine ((wrapMessageLines m).getD (i + 1) "")]) ∧
    (∀ i, i < (verticalScrollingFrames m).length →
      ((verticalScrollingFrames m).getD i ⟨[]⟩).lines.map String.length =
        [DISPLAY_WIDTH, DISPLAY_WIDTH]) ∧
    (∀ i, 0 < i → i < (verticalScrollingFrames m).length →
      ((verticalScrollingFrames m).getD i ⟨[]⟩).lines.getD 0 "" =
        ((verticalScrollingFrames m).getD (i - 1) ⟨[]⟩).lines.getD 1 "") ∧
    ((wrapMessageLines m).length ≤ 1 → verticalScrollingFrames m = []) := by
  refine ⟨?_, ?_, ?_, ?_, ?_⟩
  · rw [verticalScrollingFrames_length]
    exact (Nat.max_zero _).symm
  · intro i h
    rw [verticalScrollingFrames_getD m i h]
  · intro i h
    rw [verticalScrollingFrames_getD m i h]
    simp [fmtLine_length]
  · intro i h0 h
    have hi : i - 1 + 1 = i := by omega
    have h1 : i - 1 < (verticalScrollingFrames m).length := by omega
    rw [verticalScrollingFrames_getD m i h, verticalScrollingFrames_getD m (i - 1) h1,
      hi]
    rfl
  · intro h
    have h0 : (wrapMessageLines m).length - 1 = 0 := by omega
    simp [verticalScrollingFrames, h0]

/-- C5 witness: a three-line message yields two frames, and the second
frame's first row repeats the first frame's second row. -/
theorem vertical_scrolling_frames_spec_witness :
    (verticalScrollingFrames "a\nb\nc").length = 2 ∧
    ((verticalScrollingFrames "a\nb\nc").getD 1 ⟨[]⟩).lines.getD 0 "" =
      ((verticalScrollingFrames "a\nb\nc").getD 0 ⟨[]⟩).lines.getD 1 "" :=
  ⟨by decide,
   (vertical_scrolling_frames_spec "a\nb\nc").2.2.2.1 1 (by decide) (by decide)⟩

/-- C3: the claim says an empty catalogue, or a category with zero
phrases, is rejected at construction time, and that traversal therefore
never fails. In the code neither `Category` nor `PhraseSequencer.__init__`
validates anything: construction always succeeds with indices (0, 0),
and the very first `next_phrase(Sequential)` call on such a catalogue
raises `IndexError` (modelled as `none`). -/
theorem sequencer_construction_unvalidated :
    (∀ categories : List Category, initSequencer categories = ⟨0, 0⟩) ∧
    advanceIndices [] ⟨0, 0⟩ = none ∧
    advanceIndices [{ name := "Пустая", phrases := [] }] ⟨0, 0⟩ = none :=
  ⟨fun _ => rfl, rfl, rfl⟩

/-- C4 counterexample: the claim says a phrase exceeding 40 characters
with no spaces takes the scrolling path. Because `textwrap.wrap` is
called with `break_long_words=False`, a 41-character spaceless phrase
wraps to a single (overlong) line, so `show_message` takes the static
path, not the scrolling one. -/
theorem show_message_long_spaceless_static :
    showMessagePath longSpacelessPhrase ≠ RenderPath.scrolling ∧
    showMessagePath longSpacelessPhrase = RenderPath.static ∧
    (wrapMessageLines longSpacelessPhrase).length = 1 ∧
    longSpacelessPhrase.length = 41 ∧
    longSpacelessPhrase.data.all (fun c => !(isPySpace c)) = true := by
  refine ⟨?_, ?_, ?_, ?_, ?_⟩ <;> decide

/-- C4 (amended): `show_message` takes the static rendering path if and
only if the wrapped line count of the message is at most 2; a phrase
exceeding 40 characters with no spaces wraps to a single unbroken line
and therefore takes the static path. -/
theorem show_message_static_iff (m : String) :
    (showMessagePath m = RenderPath.static ↔
      (wrapMessageLines m).length ≤ DISPLAY_HEIGHT) ∧
    (wrapMessageLines longSpacelessPhrase).length = 1 ∧
    showMessagePath longSpacelessPhrase = RenderPath.static := by
  refine ⟨?_, by decide, by decide⟩
  by_cases h : (wrapMessageLines m).length ≤ DISPLAY_HEIGHT
  · simp [showMessagePath, h]
  · simp [showMessagePath, h]

/-- C4 witness: the iff applied to a concrete short phrase. -/
theorem show_message_static_iff_witness :
    showMessagePath "Ты справишься!" = RenderPath.static :=
  (show_message_static_iff "Ты справишься!").1.mpr (by decide)

/-- C6: `static_frame` always returns a frame of exactly 2 strings, each
exactly 20 characters: the first two wrapped lines truncated and padded
to width, the second replaced by 20 spaces when the message wraps to a
single line, and anything beyond two wrapped lines dropped. -/
theorem static_frame_spec (m : String) :
    (staticFrame m).lines.length = 2 ∧
    (staticFrame m).lines.map String.length = [DISPLAY_WIDTH, DISPLAY_WIDTH] ∧
    (staticFrame m).lines.getD 0 "" = fmtLine ((wrapMessageLines m).getD 0 "") ∧
    ((wrapMessageLines m).length ≤ 1 →
      (staticFrame m).lines.getD 1 "" = spaces DISPLAY_WIDTH) ∧
    (1 < (wrapMessageLines m).length →
      (staticFrame m).lines.getD 1 "" = fmtLine ((wrapMessageLines m).getD 1 "")) := by
  by_cases h1 : 1 < (wrapMessageLines m).length
  · refine ⟨rfl, ?_, rfl, ?_, ?_⟩
    · simp [staticFrame, h1, fmtLine_length]
    · intro h; omega
    · intro h
      simp [staticFrame, h1, List.getD_cons_succ, List.getD_cons_zero]
  · refine ⟨rfl, ?_, rfl, ?_, ?_⟩
    · simp [staticFrame, h1, fmtLine_length, spaces_length]
    · intro h
      simp [staticFrame, h1, List.getD_cons_succ, List.getD_cons_zero]
    · intro h; omega

/-- C6 witness: the empty string yields two rows of exactly 20 spaces. -/
theorem static_frame_spec_witness :
    (staticFrame "").lines.length = 2 ∧
    (staticFrame "").lines.map String.length = [DISPLAY_WIDTH, DISPLAY_WIDTH] ∧
    (staticFrame "").lines.getD 1 "" = spaces DISPLAY_WIDTH ∧
    (wrapMessageLines "").length ≤ 1 :=
  ⟨(static_frame_spec "").1, (static_frame_spec "").2.1,
   (static_frame_spec "").2.2.2.1 (by decide), by decide⟩

/-- C8: `toggle_weather` called twice from Sequential (with no previous
mode recorded) first enters Weather remembering Sequential, then
restores Sequential and clears the memory. -/
theorem toggle_weather_round_trip :
    (toggleWeatherFn initialAppState).mode = Mode.weather ∧
    (toggleWeatherFn initialAppState).prev_mode = some Mode.sequential ∧
    (toggleWeatherFn (toggleWeatherFn initialAppState)).mode = Mode.sequential ∧
    (toggleWeatherFn (toggleWeatherFn initialAppState)).prev_mode = none := by
  refine ⟨?_, ?_, ?_, ?_⟩ <;> decide

/-- C9: `stop()` does set the running flag to false, but it then
evaluates `self.button.close()` and `button` is not an attribute of
`MarkoshkaApp` (the buttons are `mode_button` and `weather_button`), so
every call raises `AttributeError` and neither button handle is closed. -/
theorem stop_sets_running_then_raises (s : AppState) :
    (stopRun s).1.running = false ∧ (stopRun s).2 = true ∧
    markoshkaAppAttributes.contains "button" = false :=
  ⟨rfl, rfl, by decide⟩

/-- C10: calling `toggle_mode` while in Weather mode raises `KeyError`
(the transition dict has no Weather key), and since the lookup precedes
every assignment the mode and pending overlay are left unchanged. -/
theorem toggle_mode_in_weather_raises (cats : List Category) (s : AppState)
    (h : s.mode = Mode.weather) :
    toggleModeFn s = none ∧ applyAction cats ButtonAction.toggleMode s = s := by
  have h1 : toggleModeFn s = none := by
    unfold toggleModeFn
    rw [h]
    rfl
  exact ⟨h1, by simp [applyAction, h1]⟩

/-- C10 witness: the state reached by one `toggle_weather` press is in
Weather mode, and `toggle_mode` raises there, changing nothing. -/
theorem toggle_mode_in_weather_raises_witness :
    toggleModeFn weatherAppState = none ∧
    applyAction markoshkaCategories ButtonAction.toggleMode weatherAppState =
      weatherAppState :=
  toggle_mode_in_weather_raises markoshkaCategories weatherAppState (by decide)

theorem toggleModeFn_mode_ne_weather (s t : AppState)
    (h : toggleModeFn s = some t) : t.mode ≠ Mode.weather := by
  obtain ⟨mo, pv, ov, ci, pi, ru, la⟩ := s
  cases mo <;> simp [toggleModeFn, toggleModeLookup, modeDisplayName] at h
  all_goals subst h
  all_goals simp

/-- C7: `toggle_mode` cycles Sequential to Random to CategorySequence
and back to Sequential in three presses, and no number of presses from
startup ever puts the controller in Weather mode. -/
theorem toggle_mode_three_cycle :
    (toggleModeIter initialAppState 1).map AppState.mode = some Mode.random ∧
    (toggleModeIter initialAppState 2).map AppState.mode =
      some Mode.categorySequence ∧
    (toggleModeIter initialAppState 3).map AppState.mode = some Mode.sequential ∧
    ∀ (n : Nat) (t : AppState), toggleModeIter initialAppState n = some t →
      t.mode ≠ Mode.weather := by
  refine ⟨by decide, by decide, by decide, ?_⟩
  intro n t h
  cases n with
  | zero =>
    simp only [toggleModeIter, Option.some.injEq] at h
    rw [← h]
    decide
  | succ n =>
    unfold toggleModeIter at h
    cases hit : toggleModeIter initialAppState n with
    | none => rw [hit] at h; exact absurd h (by simp)
    | some s1 =>
      rw [hit] at h
      exact toggleModeFn_mode_ne_weather s1 t h

/-- C7 witness: three presses reach Sequential, and the state after
three presses is not in Weather mode. -/
theorem toggle_mode_three_cycle_witness :
    (toggleModeIter initialAppState 3).map AppState.mode = some Mode.sequential ∧
    stateAfterThreeToggles.mode ≠ Mode.weather :=
  ⟨toggle_mode_three_cycle.2.2.1,
   toggle_mode_three_cycle.2.2.2 3 stateAfterThreeToggles (by decide)⟩

/-- C2 counterexample: from startup, `toggle_weather` followed by
`cycle_category` exits Weather mode (reaching CategorySequence) while
leaving `_prev_mode` set to Sequential, so `previous_mode` is defined
while the current mode is not Weather. -/
theorem prev_mode_invariant_cex :
    (runActions markoshkaCategories initialAppState
      [ButtonAction.toggleWeather, ButtonAction.cycleCategory]).mode =
        Mode.categorySequence ∧
    (runActions markoshkaCategories initialAppState
      [ButtonAction.toggleWeather, ButtonAction.cycleCategory]).prev_mode =
        some Mode.sequential ∧
    prevModeInvariantB (runActions markoshkaCategories initialAppState
      [ButtonAction.toggleWeather, ButtonAction.cycleCategory]) = false := by
  refine ⟨?_, ?_, ?_⟩ <;> decide

theorem applyAction_preserves_prev_mode_invariant (cats : List Category)
    (a : ButtonAction) (s : AppState) (ha : a ≠ ButtonAction.cycleCategory)
    (h : prevModeInvariantB s = true) :
    prevModeInvariantB (applyAction cats a s) = true := by
  obtain ⟨mo, pv, ov, ci, pi, ru, la⟩ := s
  cases a with
  | cycleCategory => exact absurd rfl ha
  | toggleMode =>
    cases mo <;> cases pv <;>
      simp_all [applyAction, toggleModeFn, toggleModeLookup, modeDisplayName,
        prevModeInvariantB]
  | toggleWeather =>
    cases mo <;> cases pv <;>
      simp_all [applyAction, toggleWeatherFn, modeDisplayName,
        prevModeInvariantB]

theorem runActions_preserves_prev_mode_invariant (cats : List Category)
    (acts : List ButtonAction) (h : ButtonAction.cycleCategory ∉ acts) :
    ∀ s : AppState, prevModeInvariantB s = true →
      prevModeInvariantB (runActions cats s acts) = true := by
  induction acts with
  | nil => intro s hs; exact hs
  | cons a rest ih =>
    intro s hs
    have ha : a ≠ ButtonAction.cycleCategory := by
      intro e
      exact h (by rw [e]; exact List.mem_cons_self _ _)
    have h2 : ButtonAction.cycleCategory ∉ rest :=
      fun hr => h (List.mem_cons_of_mem _ hr)
    exact ih h2 (applyAction cats a s)
      (applyAction_preserves_prev_mode_invariant cats a s ha hs)

/-- C2 (amended): for every sequence of `toggle_mode` and
`toggle_weather` presses from startup, `previous_mode` is defined only
while Weather is active, and every `toggle_weather` exit from Weather
clears it; `cycle_category` pressed in Weather mode, however, exits
Weather without clearing `previous_mode` (see the counterexample). -/
theorem prev_mode_invariant_restricted :
    (∀ (cats : List Category) (acts : List ButtonAction),
        ButtonAction.cycleCategory ∉ acts →
        prevModeInvariantB (runActions cats initialAppState acts) = true) ∧
    (∀ s : AppState, s.mode = Mode.weather →
        (toggleWeatherFn s).prev_mode = none) := by
  constructor
  · intro cats acts h
    exact runActions_preserves_prev_mode_invariant cats acts h initialAppState rfl
  · intro s hs
    unfold toggleWeatherFn
    rw [if_pos hs]

/-- C2 witness: the invariant holds after a weather round trip, and a
`toggle_weather` press in Weather mode clears the memory. -/
theorem prev_mode_invariant_restricted_witness :
    prevModeInvariantB (runActions markoshkaCategories initialAppState
      [ButtonAction.toggleWeather, ButtonAction.toggleWeather]) = true ∧
    (toggleWeatherFn weatherAppState).prev_mode = none :=
  ⟨prev_mode_invariant_restricted.1 markoshkaCategories
      [ButtonAction.toggleWeather, ButtonAction.toggleWeather] (by decide),
   prev_mode_invariant_restricted.2 weatherAppState (by decide)⟩

theorem runSequential_finish_category (cats : List Category) (ci : Nat)
    (hci : ci < cats.length) :
    ∀ d j, cats[ci].phrases.length - j = d → j < cats[ci].phrases.length →
      runSequential cats ⟨ci, j⟩ d =
        some ((cats[ci].phrases.drop j).map (fun p => (cats[ci], p)),
              ⟨(ci + 1) % cats.length, 0⟩) := by
  intro d
  induction d with
  | zero => intro j hd hj; omega
  | succ d ih =>
    intro j hd hj
    have hget : cats[ci]? = some cats[ci] := List.getElem?_eq_getElem hci
    have hpget : cats[ci].phrases[j]? = some (cats[ci].phrases[j]) :=
      List.getElem?_eq_getElem hj
    by_cases hlast : j + 1 = cats[ci].phrases.length
    · have hd0 : d = 0 := by omega
      subst hd0
      have hadv : advanceIndices cats ⟨ci, j⟩ =
          some ((cats[ci], cats[ci].phrases[j]), ⟨(ci + 1) % cats.length, 0⟩) := by
        simp only [advanceIndices, hget, hpget]
        rw [hlast, Nat.mod_self]
        simp
      have hdrop : cats[ci].phrases.drop j = [cats[ci].phrases[j]] := by
        rw [List.drop_eq_getElem_cons hj, hlast, List.drop_length]
      simp only [runSequential, hadv, hdrop, List.map_cons, List.map_nil]
    · have hj1 : j + 1 < cats[ci].phrases.length := by omega
      have hadv : advanceIndices cats ⟨ci, j⟩ =
          some ((cats[ci], cats[ci].phrases[j]), ⟨ci, j + 1⟩) := by
        simp only [advanceIndices, hget, hpget]
        rw [Nat.mod_eq_of_lt hj1]
        simp
      have hrec := ih (j + 1) (by omega) hj1
      simp only [runSequential, hadv, hrec]
      rw [List.drop_eq_getElem_cons hj, List.map_cons]

theorem runSequential_add (cats : List Category) (m : Nat) :
    ∀ (n : Nat) (s : SequencerState),
      runSequential cats s (m + n) =
        match runSequential cats s m with
        | none => none
        | some (out, s1) =>
          match runSequential cats s1 n with
          | none => none
          | some (out2, s2) => some (out ++ out2, s2) := by
  induction m with
  | zero =>
    intro n s
    simp only [Nat.zero_add, runSequential]
    cases h : runSequential cats s n with
    | none => rfl
    | some r => cases r; simp
  | succ m ih =>
    intro n s
    rw [Nat.succ_add]
    simp only [runSequential]
    cases ha : advanceIndices cats s with
    | none => rfl
    | some r =>
      obtain ⟨p, s1⟩ := r
      dsimp only
      rw [ih n s1]
      cases h1 : runSequential cats s1 m with
      | none => rfl
      | some r1 =>
        obtain ⟨out, s2⟩ := r1
        dsimp only
        cases h2 : runSequential cats s2 n with
        | none => rfl
        | some r2 =>
          obtain ⟨out2, s3⟩ := r2
          dsimp only
          simp

theorem runSequential_from (cats : List Category)
    (hall : ∀ c ∈ cats, c.phrases ≠ []) :
    ∀ d k, cats.length - k = d → k < cats.length →
      runSequential cats ⟨k, 0⟩ (countFrom cats k) =
        some (pairsFrom cats k, ⟨0, 0⟩) := by
  intro d
  induction d with
  | zero => intro k hd hk; omega
  | succ d ih =>
    intro k hd hk
    have hphr : cats[k].phrases ≠ [] := hall _ (List.getElem_mem hk)
    have hlen : 0 < cats[k].phrases.length := List.length_pos.mpr hphr
    have hcount : countFrom cats k =
        cats[k].phrases.length + countFrom cats (k + 1) := by
      unfold countFrom
      rw [List.drop_eq_getElem_cons hk, List.map_cons, List.sum_cons]
    have hpairs : pairsFrom cats k =
        (cats[k].phrases.map (fun p => (cats[k], p))) ++ pairsFrom cats (k + 1) := by
      unfold pairsFrom
      rw [List.drop_eq_getElem_cons hk, List.flatMap_cons]
    have hfirst := runSequential_finish_category cats k hk
      cats[k].phrases.length 0 (by omega) hlen
    rw [List.drop_zero] at hfirst
    rw [hcount, runSequential_add, hfirst]
    by_cases hlast : k + 1 = cats.length
    · have hmod : (k + 1) % cats.length = 0 := by rw [hlast, Nat.mod_self]
      have hc2 : countFrom cats (k + 1) = 0 := by
        unfold countFrom
        rw [hlast, List.drop_length]
        rfl
      have hp2 : pairsFrom cats (k + 1) = [] := by
        unfold pairsFrom
        rw [hlast, List.drop_length]
        rfl
      rw [hmod, hc2]
      simp only [runSequential]
      rw [hpairs, hp2, List.append_nil]
    · have hk1 : k + 1 < cats.length := by omega
      rw [Nat.mod_eq_of_lt hk1]
      dsimp only
      rw [ih (k + 1) (by omega) hk1]
      dsimp only
      rw [hpairs]

/-- C1: for every non-empty catalogue in which every category has at
least one phrase, `total_phrase_count` calls of `next_phrase(Sequential)`
from the initial cursor (0, 0) return every phrase of every category
exactly once, in catalogue insertion order and in phrase order within
each category, ending with the cursor back at (0, 0), and the
`(total_phrase_count + 1)`-th call returns the first phrase again. -/
theorem sequential_round_robin (cats : List Category) (hne : cats ≠ [])
    (hall : ∀ c ∈ cats, c.phrases ≠ []) :
    runSequential cats ⟨0, 0⟩ (totalPhraseCount cats) =
      some (cataloguePairs cats, ⟨0, 0⟩) ∧
    (runSequential cats ⟨0, 0⟩ (totalPhraseCount cats + 1)).map (fun r => r.1) =
      some (cataloguePairs cats ++ (cataloguePairs cats).take 1) := by
  have hn : 0 < cats.length := List.length_pos.mpr hne
  have h0 : countFrom cats 0 = totalPhraseCount cats := by
    unfold countFrom totalPhraseCount
    rw [List.drop_zero]
  have hp0 : pairsFrom cats 0 = cataloguePairs cats := by
    unfold pairsFrom cataloguePairs
    rw [List.drop_zero]
  have hmain := runSequential_from cats hall cats.length 0 (by omega) hn
  rw [h0, hp0] at hmain
  refine ⟨hmain, ?_⟩
  rw [runSequential_add, hmain]
  dsimp only
  cases hcats : cats with
  | nil =>
    subst hcats
    exact absurd rfl hne
  | cons c0 cs =>
    subst hcats
    cases hph : c0.phrases with
    | nil =>
      exact absurd hph (hall c0 (List.mem_cons_self c0 cs))
    | cons p0 ps =>
      have hpg : c0.phrases[(0 : Nat)]? = some p0 := by
        rw [hph]
        exact List.getElem?_cons_zero
      have htake : (cataloguePairs (c0 :: cs)).take 1 = [(c0, p0)] := by
        unfold cataloguePairs
        rw [List.flatMap_cons, hph, List.map_cons, List.cons_append,
          List.take_succ_cons, List.take_zero]
      obtain ⟨s1, h1⟩ : ∃ s1,
          runSequential (c0 :: cs) ⟨0, 0⟩ 1 = some ([(c0, p0)], s1) := by
        simp only [runSequential, advanceIndices, List.getElem?_cons_zero, hpg]
        by_cases hz : (0 + 1) % c0.phrases.length = 0
        · rw [if_pos hz]
          exact ⟨_, rfl⟩
        · rw [if_neg hz]
          exact ⟨_, rfl⟩
      rw [h1]
      dsimp only
      rw [htake]
      rfl


/-- C1 witness: the real nine-category catalogue has 12 phrases; twelve
sequential calls return all of them in catalogue order with the cursor
back at (0, 0), and the thirteenth call repeats the first phrase. -/
theorem sequential_round_robin_witness :
    runSequential markoshkaCategories ⟨0, 0⟩
        (totalPhraseCount markoshkaCategories) =
      some (cataloguePairs markoshkaCategories, ⟨0, 0⟩) ∧
    (runSequential markoshkaCategories ⟨0, 0⟩
        (totalPhraseCount markoshkaCategories + 1)).map (fun r => r.1) =
      some (cataloguePairs markoshkaCategories ++
        (cataloguePairs markoshkaCategories).take 1) :=
  sequential_round_robin markoshkaCategories (by decide) (by decide)

end Markoshka
